import Mathlib

/-!
Shallow embedding of the todo application's state logic
(`src/todo_frontend/App.tsx`) and proofs of its specified properties.

The component keeps five pieces of state: the todo collection, the filter
mode, the modal visibility flag, the current draft text, and the id of the
todo being edited (if any).  Time (`Date.now()`) and the random id suffix
(`Math.random().toString(36).slice(2, 8)`) are environment inputs, so the
embedded operations take them as explicit parameters.
-/

namespace TodoApp

/-- Removes the longest run of elements satisfying `p` from both ends of a
list. -/
def trimBoth (p : α → Bool) (l : List α) : List α :=
  ((l.dropWhile p).reverse.dropWhile p).reverse

/-- Model of JavaScript `String.prototype.trim`: removes whitespace from both
ends of the string. -/
def jsTrim (s : String) : String :=
  String.mk (trimBoth Char.isWhitespace s.data)

/-- The `Todo` record type from `App.tsx` (`id`, `title`, `completed`,
`createdAt`, optional `updatedAt`). -/
structure Todo where
  id : String
  title : String
  completed : Bool
  createdAt : Nat
  updatedAt : Option Nat
deriving Repr, DecidableEq

/-- The `Filter` union type: `'all' | 'active' | 'completed'`. -/
inductive Filter where
  | all
  | active
  | completed
deriving Repr, DecidableEq

/-- The component state: `todos`, `filter`, `isModalVisible`, `currentTitle`,
`editingId` (the `useState` hooks of `App`). -/
structure AppState where
  todos : List Todo
  filter : Filter
  modalVisible : Bool
  currentTitle : String
  editingId : Option String
deriving Repr, DecidableEq

/-- Errors the specification ascribes to store operations.  The code surfaces
`EmptyTitle` through an alert in `saveTodo`; it has no `NotFound` path at
all, which several theorems below make precise. -/
inductive StoreError where
  | EmptyTitle
  | NotFound
deriving Repr, DecidableEq

/-- JavaScript truthiness of `editingId : string | null`: `null` and the
empty string are falsy. -/
def isTruthy : Option String → Bool
  | none => false
  | some s => s ≠ ""

/-- The id generated by `saveTodo` for a new todo:
`` `${Date.now()}-${Math.random().toString(36).slice(2, 8)}` ``. -/
def mkId (now : Nat) (rand : String) : String :=
  toString now ++ "-" ++ rand

/-- The `filteredTodos` memo: projects the visible subset for the current
filter mode. -/
def filteredTodos (todos : List Todo) : Filter → List Todo
  | Filter.active => todos.filter (fun t => !t.completed)
  | Filter.completed => todos.filter (fun t => t.completed)
  | Filter.all => todos

/-- Result of running the `saveTodo` handler: the new component state plus
the alert it raised, if any.  The handler itself returns `undefined`. -/
structure SaveResult where
  state : AppState
  alert : Option StoreError
deriving Repr, DecidableEq

/-- The `saveTodo` handler.  Trims the draft; an empty result raises the
empty-title alert and returns without mutating anything.  Otherwise, if
`editingId` is truthy the matching todo's title and `updatedAt` are updated
in place; if not, a fresh todo is prepended.  Either way the modal closes,
the draft is cleared and `editingId` is reset. -/
def saveTodo (s : AppState) (now : Nat) (rand : String) : SaveResult :=
  let title := jsTrim s.currentTitle
  if title = "" then
    { state := s, alert := some StoreError.EmptyTitle }
  else
    let newTodo : Todo :=
      { id := mkId now rand, title := title, completed := false,
        createdAt := now, updatedAt := none }
    let newTodos :=
      match s.editingId with
      | some eid =>
          -- `if (editingId)` is falsy for the empty string as well as null
          if eid = "" then newTodo :: s.todos
          else
            s.todos.map (fun t =>
              if t.id = eid then { t with title := title, updatedAt := some now }
              else t)
      | none => newTodo :: s.todos
    { state :=
        { s with todos := newTodos, modalVisible := false, currentTitle := "",
                 editingId := none },
      alert := none }

/-- The `toggleComplete` handler's `setTodos` updater: flips `completed` and
stamps `updatedAt` on the todo whose id matches. -/
def toggleComplete (todos : List Todo) (id : String) (now : Nat) : List Todo :=
  todos.map (fun t =>
    if t.id = id then { t with completed := !t.completed, updatedAt := some now }
    else t)

/-- The confirmed path of the `deleteTodo` handler (`performDelete`), paired
with the value the handler returns.  The handler has no error branch and
returns `undefined`, modelled as the `none` component. -/
def deleteTodo (todos : List Todo) (id : String) : List Todo × Option StoreError :=
  (todos.filter (fun t => t.id ≠ id), none)

/-- The `clearCompleted` handler (confirmed path), paired with the value the
handler returns.  If no todo is completed it returns early; otherwise the
confirmed updater removes the completed todos.  In both cases the handler
returns `undefined`, modelled as the `none` component. -/
def clearCompleted (todos : List Todo) : List Todo × Option Nat :=
  if todos.any (fun t => t.completed) then
    (todos.filter (fun t => !t.completed), none)
  else
    (todos, none)

/-- The `openAddModal` handler: clears `editingId` and the draft, opens the
modal. -/
def openAddModal (s : AppState) : AppState :=
  { s with editingId := none, currentTitle := "", modalVisible := true }

/-- The `openEditModal` handler: looks the id up in the collection; if absent
it returns without any state change, otherwise it loads the todo's title into
the draft and opens the modal. -/
def openEditModal (s : AppState) (id : String) : AppState :=
  match s.todos.find? (fun t => t.id = id) with
  | none => s
  | some t =>
      { s with editingId := some id, currentTitle := t.title,
               modalVisible := true }

/-- The modal's Cancel button handler: closes the modal, clears the draft and
`editingId`. -/
def cancelModal (s : AppState) : AppState :=
  { s with modalVisible := false, currentTitle := "", editingId := none }

/-- User-interface events that drive the component, with the environment
inputs (`Date.now()` and the random id suffix) carried by the events that
consume them.  The delete and clear events model the confirmed path of
their confirmation prompts. -/
inductive Event where
  | openAdd
  | openEdit (id : String)
  | typeText (text : String)
  | submit (now : Nat) (rand : String)
  | cancel
  | toggle (id : String) (now : Nat)
  | deleteConfirmed (id : String)
  | clearConfirmed
deriving Repr, DecidableEq

/-- One step of the component: dispatches an event to its handler. -/
def step (s : AppState) : Event → AppState
  | Event.openAdd => openAddModal s
  | Event.openEdit id => openEditModal s id
  | Event.typeText text => { s with currentTitle := text }
  | Event.submit now rand => (saveTodo s now rand).state
  | Event.cancel => cancelModal s
  | Event.toggle id now => { s with todos := toggleComplete s.todos id now }
  | Event.deleteConfirmed id => { s with todos := (deleteTodo s.todos id).1 }
  | Event.clearConfirmed => { s with todos := (clearCompleted s.todos).1 }

/-- Runs a sequence of events from a starting state. -/
def run (s : AppState) (es : List Event) : AppState :=
  es.foldl step s

/-- The initial component state: empty collection, `all` filter, closed
modal, empty draft, no edit target. -/
def initState : AppState :=
  { todos := [], filter := Filter.all, modalVisible := false,
    currentTitle := "", editingId := none }

/-- The collection invariant of C8: every stored title is non-empty and
equal to its own trimmed form, and no two todos share an id. -/
def Invariant (todos : List Todo) : Prop :=
  (∀ t ∈ todos, t.title ≠ "" ∧ jsTrim t.title = t.title) ∧
  (todos.map (fun t => t.id)).Nodup

/-- An event is id-fresh in state `s` if, whenever it is a submit that
creates a new todo, the id the environment supplies does not already occur
in the collection.  `Date.now()` plus `Math.random()` make the generated id
an environment input, so this freshness is the one environmental assumption
behind id uniqueness. -/
def eventFresh (s : AppState) : Event → Bool
  | Event.submit now rand =>
      isTruthy s.editingId || jsTrim s.currentTitle == "" ||
        !(s.todos.map (fun t => t.id)).contains (mkId now rand)
  | _ => true

/-- Every event of the sequence is id-fresh at the moment it is applied. -/
def freshEvents : AppState → List Event → Bool
  | _, [] => true
  | s, e :: es => eventFresh s e && freshEvents (step s e) es

/-- A concrete todo used by the concrete evaluations below. -/
def sampleTodo : Todo :=
  { id := "1-a", title := "x", completed := false, createdAt := 1,
    updatedAt := none }

/-- A concrete completed todo used by the concrete evaluations below. -/
def doneTodo : Todo :=
  { id := "2-b", title := "y", completed := true, createdAt := 2,
    updatedAt := none }

/-- A concrete open-modal create-mode state over the given todos with the
given draft. -/
def draftState (todos : List Todo) (d : String) : AppState :=
  { todos := todos, filter := Filter.all, modalVisible := true,
    currentTitle := d, editingId := none }

/-- A concrete open-modal edit-mode state over the given todos with the
given draft and edit target. -/
def editState (todos : List Todo) (d : String) (eid : String) : AppState :=
  { todos := todos, filter := Filter.all, modalVisible := true,
    currentTitle := d, editingId := some eid }

/-- A concrete closed-modal state holding the given todos. -/
def idleState (todos : List Todo) : AppState :=
  { todos := todos, filter := Filter.all, modalVisible := false,
    currentTitle := "", editingId := none }

/-- A concrete edit submission over two todos, used to evaluate the edit
path at a specific input. -/
def editDemo : SaveResult :=
  saveTodo (editState [sampleTodo, doneTodo] " new " "1-a") 9 "r"

/-- List counterpart of trim idempotence: dropping from both ends twice is
the same as doing it once. -/
theorem dropWhile_dropWhile_self (p : α → Bool) (l : List α) :
    (l.dropWhile p).dropWhile p = l.dropWhile p := by
  induction l with
  | nil => rfl
  | cons a t ih =>
      by_cases h : p a
      · simp [List.dropWhile_cons, h, ih]
      · simp [List.dropWhile_cons, h]

/-- The head of `dropWhile p l`, when it exists, does not satisfy `p`. -/
theorem head?_dropWhile_not (p : α → Bool) (l : List α) (a : α)
    (h : (l.dropWhile p).head? = some a) : p a = false := by
  induction l with
  | nil => simp at h
  | cons b t ih =>
      rw [List.dropWhile_cons] at h
      by_cases hb : p b
      · rw [if_pos hb] at h
        exact ih h
      · rw [if_neg hb] at h
        simp at h
        subst h
        simpa using hb

/-- Dropping a prefix does not change the last element (when something
remains). -/
theorem getLast?_dropWhile (p : α → Bool) (l : List α)
    (h : l.dropWhile p ≠ []) : (l.dropWhile p).getLast? = l.getLast? := by
  induction l with
  | nil => simp at h
  | cons b t ih =>
      rw [List.dropWhile_cons] at h ⊢
      by_cases hb : p b
      · rw [if_pos hb] at h ⊢
        cases t with
        | nil => simp at h
        | cons c t' => rw [ih h, List.getLast?_cons_cons]
      · rw [if_neg hb]

/-- A list whose head fails `p` is unchanged by `dropWhile p`. -/
theorem dropWhile_eq_self_of_head (p : α → Bool) (l : List α) (a : α)
    (ha : l.head? = some a) (hpa : p a = false) : l.dropWhile p = l := by
  cases l with
  | nil => rfl
  | cons b t =>
      simp at ha
      subst ha
      simp [List.dropWhile_cons, hpa]

/-- Trimming both ends of a list is idempotent. -/
theorem trimBoth_idem (p : α → Bool) (l : List α) :
    trimBoth p (trimBoth p l) = trimBoth p l := by
  unfold trimBoth
  by_cases hm : (l.dropWhile p).reverse.dropWhile p = []
  · simp [hm]
  · have hne : l.dropWhile p ≠ [] := by
      intro hnil
      apply hm
      rw [hnil]
      rfl
    obtain ⟨a, ha⟩ : ∃ a, (l.dropWhile p).head? = some a := by
      cases hdp : l.dropWhile p with
      | nil => exact absurd hdp hne
      | cons x xs => exact ⟨x, by simp⟩
    have hrev : ((l.dropWhile p).reverse.dropWhile p).reverse.head?
        = (l.dropWhile p).head? := by
      rw [List.head?_reverse, getLast?_dropWhile p _ hm, List.getLast?_reverse]
    have hpa : p a = false := head?_dropWhile_not p l a ha
    have h1 : ((l.dropWhile p).reverse.dropWhile p).reverse.dropWhile p
        = ((l.dropWhile p).reverse.dropWhile p).reverse :=
      dropWhile_eq_self_of_head p _ a (by rw [hrev, ha]) hpa
    rw [h1, List.reverse_reverse, dropWhile_dropWhile_self]

/-- JavaScript trim is idempotent. -/
theorem jsTrim_idem (s : String) : jsTrim (jsTrim s) = jsTrim s :=
  congrArg String.mk (trimBoth_idem Char.isWhitespace s.data)

/-- Indexing into a mapped list applies the function at that index. -/
theorem get_map_self (f : α → β) (l : List α) (j : Nat) (hj : j < l.length)
    (hj2 : j < (l.map f).length) :
    (l.map f).get ⟨j, hj2⟩ = f (l.get ⟨j, hj⟩) := by
  simp [List.get_eq_getElem, List.getElem_map]

/-- Indexing is compatible with propositional equality of lists. -/
theorem get_congr (l l' : List α) (h : l = l') (i : Nat)
    (hi1 : i < l.length) (hi2 : i < l'.length) :
    l.get ⟨i, hi1⟩ = l'.get ⟨i, hi2⟩ := by
  subst h
  rfl

/-- Mapping an id-preserving function over the collection leaves the id list
unchanged. -/
theorem map_ids_of_preserving (f : Todo → Todo) (hf : ∀ t, (f t).id = t.id)
    (l : List Todo) :
    (l.map f).map (fun t => t.id) = l.map (fun t => t.id) := by
  induction l with
  | nil => rfl
  | cons a t ih => simp [hf, ih]

/-- Filtering the collection preserves the collection invariant. -/
theorem invariant_filter (todos : List Todo) (p : Todo → Bool)
    (h : Invariant todos) : Invariant (todos.filter p) := by
  obtain ⟨ht, hn⟩ := h
  constructor
  · intro t htf
    exact ht t (List.mem_filter.mp htf).1
  · exact List.Nodup.sublist (List.Sublist.map _ (List.filter_sublist todos)) hn

/-- C6: `filteredTodos` returns the collection itself for `all`, and the
order-preserving subsequences of active resp. completed todos for the other
two modes; as sets those two subsequences are disjoint and their union is
the full collection.  It is a pure projection: the input collection appears
unchanged in the result. -/
theorem filteredTodos_spec (todos : List Todo) :
    filteredTodos todos Filter.all = todos ∧
    filteredTodos todos Filter.active = todos.filter (fun t => !t.completed) ∧
    filteredTodos todos Filter.completed = todos.filter (fun t => t.completed) ∧
    List.Sublist (filteredTodos todos Filter.active) todos ∧
    List.Sublist (filteredTodos todos Filter.completed) todos ∧
    (∀ t, (t ∈ filteredTodos todos Filter.active ∨
           t ∈ filteredTodos todos Filter.completed) ↔
          t ∈ filteredTodos todos Filter.all) ∧
    (∀ t, t ∈ filteredTodos todos Filter.active →
          t ∈ filteredTodos todos Filter.completed → False) := by
  refine ⟨rfl, rfl, rfl, List.filter_sublist todos, List.filter_sublist todos,
    ?_, ?_⟩
  · intro t
    simp only [filteredTodos]
    constructor
    · rintro (h | h) <;> exact (List.mem_filter.mp h).1
    · intro h
      by_cases hc : t.completed
      · right
        exact List.mem_filter.mpr ⟨h, by simpa using hc⟩
      · left
        exact List.mem_filter.mpr ⟨h, by simpa using hc⟩
  · intro t h1 h2
    simp only [filteredTodos] at h1 h2
    have c1 := (List.mem_filter.mp h1).2
    have c2 := (List.mem_filter.mp h2).2
    simp at c1 c2
    rw [c1] at c2
    exact Bool.false_ne_true c2

/-- C9: when the draft trims to empty, submitting raises the empty-title
alert and changes nothing: the modal stays as it was (the editor is not
closed), the draft and edit target are untouched, and the collection is not
mutated — the whole component state is returned unchanged. -/
theorem saveTodo_empty_draft (s : AppState) (now : Nat) (rand : String)
    (_hmodal : s.modalVisible = true) (h : jsTrim s.currentTitle = "") :
    (saveTodo s now rand).alert = some StoreError.EmptyTitle ∧
    (saveTodo s now rand).state = s := by
  unfold saveTodo
  simp [h]

/-- Witness for C9 at a concrete open-modal state with a whitespace draft. -/
theorem saveTodo_empty_draft_witness :
    (saveTodo (draftState [sampleTodo] "   ") 5 "abc").alert
      = some StoreError.EmptyTitle ∧
    (saveTodo (draftState [sampleTodo] "   ") 5 "abc").state
      = draftState [sampleTodo] "   " :=
  saveTodo_empty_draft (draftState [sampleTodo] "   ") 5 "abc" rfl (by decide)

/-- C10: opening the edit modal for an id absent from the collection is a
complete no-op: the modal is not opened and the edit target, draft and
collection are all unchanged. -/
theorem openEditModal_absent (s : AppState) (id : String)
    (h : ∀ t ∈ s.todos, t.id ≠ id) : openEditModal s id = s := by
  unfold openEditModal
  have hfind : s.todos.find? (fun t => t.id = id) = none := by
    rw [List.find?_eq_none]
    intro t ht
    simpa using h t ht
  rw [hfind]

/-- Witness for C10: a concrete singleton collection and a foreign id. -/
theorem openEditModal_absent_witness :
    openEditModal (idleState [sampleTodo]) "zzz" = idleState [sampleTodo] :=
  openEditModal_absent (idleState [sampleTodo]) "zzz" (by decide)

/-- C1: in create mode (`editingId = none`) submitting trims the draft; if
the trimmed draft is empty the operation fails with the empty-title alert
and the collection is unchanged; otherwise a new todo with the trimmed
title, `completed = false`, `createdAt = now` and `updatedAt` unset is
prepended as the first element, and the collection grows by exactly one. -/
theorem saveTodo_create (s : AppState) (now : Nat) (rand : String)
    (hid : s.editingId = none) :
    (jsTrim s.currentTitle = "" →
      (saveTodo s now rand).alert = some StoreError.EmptyTitle ∧
      (saveTodo s now rand).state.todos = s.todos) ∧
    (jsTrim s.currentTitle ≠ "" →
      (saveTodo s now rand).alert = none ∧
      (saveTodo s now rand).state.todos =
        { id := mkId now rand, title := jsTrim s.currentTitle,
          completed := false, createdAt := now,
          updatedAt := none } :: s.todos ∧
      (saveTodo s now rand).state.todos.length = s.todos.length + 1) := by
  unfold saveTodo
  constructor
  · intro h
    simp [h]
  · intro h
    simp [h, hid]

/-- Witness for C1: creating from a concrete draft that trims to a non-empty
title. -/
theorem saveTodo_create_witness :
    (saveTodo (draftState [] " hi ") 5 "abc").alert = none ∧
    (saveTodo (draftState [] " hi ") 5 "abc").state.todos
      = [{ id := mkId 5 "abc", title := jsTrim " hi ", completed := false,
           createdAt := 5, updatedAt := none }] ∧
    (saveTodo (draftState [] " hi ") 5 "abc").state.todos.length
      = List.length ([] : List Todo) + 1 :=
  (saveTodo_create (draftState [] " hi ") 5 "abc" rfl).2 (by decide)

/-- C2 counterexample: the claim requires `delete` of an absent id to return
the `NotFound` error, but the handler has no error branch at all — deleting
from the empty collection signals nothing. -/
theorem deleteTodo_absent_counterexample :
    ¬ ((deleteTodo [] "x").2 = some StoreError.NotFound) := by
  decide

/-- C2 amended: deleting an id absent from the collection is silently
ignored — the collection is left unchanged and no error of any kind is
signalled (the handler returns `undefined` and has no `NotFound` path).
In particular, after a successful delete of an id, deleting it again
changes nothing and reports nothing. -/
theorem deleteTodo_absent (todos : List Todo) (id : String)
    (h : ∀ t ∈ todos, t.id ≠ id) :
    deleteTodo todos id = (todos, none) := by
  unfold deleteTodo
  have : todos.filter (fun t => t.id ≠ id) = todos := by
    rw [List.filter_eq_self]
    intro t ht
    simpa using h t ht
  rw [this]

/-- Witness for the amended C2: the double-delete scenario.  Deleting the
sample todo succeeds and empties the collection; deleting the same id again
leaves the empty collection unchanged with no error. -/
theorem deleteTodo_absent_witness :
    (deleteTodo [sampleTodo] "1-a").1 = [] ∧
    deleteTodo (deleteTodo [sampleTodo] "1-a").1 "1-a" = ([], none) :=
  ⟨by decide, deleteTodo_absent (deleteTodo [sampleTodo] "1-a").1 "1-a"
    (by decide)⟩

/-- C3 counterexample: the claim requires a submitted edit whose target id
is absent to fail with `NotFound`, but the handler signals nothing — at a
concrete editing state over the empty collection the submit produces no
error. -/
theorem saveTodo_edit_absent_counterexample :
    ¬ ((saveTodo (editState [] "abc" "x") 5 "r").alert
        = some StoreError.NotFound) := by
  decide

/-- C3 amended: submitting an edit whose target id is absent from the
collection leaves the collection unchanged and transitions the session to
Idle with the draft discarded (modal closed, draft cleared, edit target
cleared) — but no `NotFound` error is signalled; the submit completes as if
it had succeeded. -/
theorem saveTodo_edit_absent (s : AppState) (now : Nat) (rand : String)
    (eid : String) (hid : s.editingId = some eid) (heid : eid ≠ "")
    (habs : ∀ t ∈ s.todos, t.id ≠ eid)
    (hdraft : jsTrim s.currentTitle ≠ "") :
    (saveTodo s now rand).state.todos = s.todos ∧
    (saveTodo s now rand).state.editingId = none ∧
    (saveTodo s now rand).state.currentTitle = "" ∧
    (saveTodo s now rand).state.modalVisible = false ∧
    (saveTodo s now rand).alert = none := by
  have hsave : saveTodo s now rand =
      { state :=
          { s with
            todos := s.todos.map (fun t =>
              if t.id = eid then
                { t with title := jsTrim s.currentTitle,
                         updatedAt := some now }
              else t),
            modalVisible := false, currentTitle := "", editingId := none },
        alert := none } := by
    unfold saveTodo
    simp [hdraft, hid, heid]
  rw [hsave]
  refine ⟨?_, rfl, rfl, rfl, rfl⟩
  show s.todos.map _ = s.todos
  conv_rhs => rw [← List.map_id s.todos]
  apply List.map_congr_left
  intro t ht
  simp [habs t ht]

/-- Witness for the amended C3: an edit session whose target was deleted
out from under it. -/
theorem saveTodo_edit_absent_witness :
    (saveTodo (editState [sampleTodo] "new title" "zzz") 7 "r").state.todos
      = [sampleTodo] ∧
    (saveTodo (editState [sampleTodo] "new title" "zzz") 7 "r").state.editingId
      = none ∧
    (saveTodo (editState [sampleTodo] "new title" "zzz") 7 "r").state.currentTitle
      = "" ∧
    (saveTodo (editState [sampleTodo] "new title" "zzz") 7 "r").state.modalVisible
      = false ∧
    (saveTodo (editState [sampleTodo] "new title" "zzz") 7 "r").alert = none :=
  saveTodo_edit_absent (editState [sampleTodo] "new title" "zzz") 7 "r" "zzz"
    rfl (by decide) (by decide) (by decide)

/-- C4 counterexample: the claim requires `clearCompleted` to return the
number of items removed; on a collection with one completed todo that would
be `1`, but the handler returns `undefined` — no count. -/
theorem clearCompleted_count_counterexample :
    ¬ ((clearCompleted [doneTodo]).2 = some 1) := by
  decide

/-- C4 amended: `clearCompleted` removes exactly the completed todos,
preserving the relative order of the rest (the result is a subsequence of
the collection); a collection with nothing completed is a valid no-op; the
operation is idempotent — an immediate second call changes nothing; and it
returns no removal count (the handler's return value is `undefined`). -/
theorem clearCompleted_spec (todos : List Todo) :
    (clearCompleted todos).1 = todos.filter (fun t => !t.completed) ∧
    (∀ t ∈ (clearCompleted todos).1, t.completed = false) ∧
    List.Sublist (clearCompleted todos).1 todos ∧
    (clearCompleted (clearCompleted todos).1).1 = (clearCompleted todos).1 ∧
    (clearCompleted todos).2 = none := by
  have hfil : ∀ t ∈ todos.filter (fun t => !t.completed),
      t.completed = false := by
    intro t ht
    have := (List.mem_filter.mp ht).2
    simpa using this
  have h1 : (clearCompleted todos).1 = todos.filter (fun t => !t.completed) := by
    unfold clearCompleted
    by_cases h : todos.any (fun t => t.completed)
    · simp [h]
    · simp only [h, if_neg, ite_false, Bool.false_eq_true]
      rw [eq_comm, List.filter_eq_self]
      intro t ht
      simp only [List.any_eq_true, not_exists, not_and] at h
      simp [h t ht]
  have hnone : (clearCompleted todos).2 = none := by
    unfold clearCompleted
    by_cases h : todos.any (fun t => t.completed) <;> simp [h]
  refine ⟨h1, ?_, ?_, ?_, hnone⟩
  · rw [h1]
    exact hfil
  · rw [h1]
    exact List.filter_sublist todos
  · rw [h1]
    unfold clearCompleted
    have hany : (todos.filter (fun t => !t.completed)).any
        (fun t => t.completed) = false := by
      rw [List.any_eq_false]
      intro t ht
      simp [hfil t ht]
    simp [hany]

/-- C5: toggling the todo at a position whose id matches flips its
`completed` flag and stamps `updatedAt` with the current time; toggling the
same id again at a later time restores the original flag, and the two
`updatedAt` stamps strictly increase.  Both calls preserve the collection
length. -/
theorem toggleComplete_twice (todos : List Todo) (id : String) (t1 t2 : Nat)
    (i : Nat) (hi : i < todos.length)
    (hid : (todos.get ⟨i, hi⟩).id = id) (hlt : t1 < t2) :
    (toggleComplete todos id t1).length = todos.length ∧
    (toggleComplete (toggleComplete todos id t1) id t2).length
      = todos.length ∧
    (∀ h1 : i < (toggleComplete todos id t1).length,
      ((toggleComplete todos id t1).get ⟨i, h1⟩).completed
          = !(todos.get ⟨i, hi⟩).completed ∧
      ((toggleComplete todos id t1).get ⟨i, h1⟩).updatedAt = some t1) ∧
    (∀ h2 : i < (toggleComplete (toggleComplete todos id t1) id t2).length,
      ((toggleComplete (toggleComplete todos id t1) id t2).get
          ⟨i, h2⟩).completed = (todos.get ⟨i, hi⟩).completed ∧
      ((toggleComplete (toggleComplete todos id t1) id t2).get
          ⟨i, h2⟩).updatedAt = some t2) ∧
    t1 < t2 := by
  have hlen1 : (toggleComplete todos id t1).length = todos.length := by
    simp [toggleComplete]
  have hlen2 : (toggleComplete (toggleComplete todos id t1) id t2).length
      = todos.length := by
    simp [toggleComplete]
  refine ⟨hlen1, hlen2, ?_, ?_, hlt⟩
  · intro h1
    have e1 : (toggleComplete todos id t1).get ⟨i, h1⟩
        = (fun t => if t.id = id then
            { t with completed := !t.completed, updatedAt := some t1 }
          else t) (todos.get ⟨i, hi⟩) :=
      get_map_self _ todos i hi h1
    have hid2 : todos[i].id = id := hid
    rw [e1]
    simp [hid2]
  · intro h2
    have hi1 : i < (toggleComplete todos id t1).length := by
      rw [hlen1]
      exact hi
    have e2 : (toggleComplete (toggleComplete todos id t1) id t2).get ⟨i, h2⟩
        = (fun t => if t.id = id then
            { t with completed := !t.completed, updatedAt := some t2 }
          else t) ((toggleComplete todos id t1).get ⟨i, hi1⟩) :=
      get_map_self _ (toggleComplete todos id t1) i hi1 h2
    have e1 : (toggleComplete todos id t1).get ⟨i, hi1⟩
        = (fun t => if t.id = id then
            { t with completed := !t.completed, updatedAt := some t1 }
          else t) (todos.get ⟨i, hi⟩) :=
      get_map_self _ todos i hi hi1
    have hid2 : todos[i].id = id := hid
    rw [e2, e1]
    simp [hid2]

/-- Witness for C5: toggling a concrete one-element collection at times 1
and 2. -/
theorem toggleComplete_twice_witness :
    (toggleComplete [sampleTodo] "1-a" 1).length = [sampleTodo].length ∧
    (toggleComplete (toggleComplete [sampleTodo] "1-a" 1) "1-a" 2).length
      = [sampleTodo].length ∧
    (∀ h1 : 0 < (toggleComplete [sampleTodo] "1-a" 1).length,
      ((toggleComplete [sampleTodo] "1-a" 1).get ⟨0, h1⟩).completed
          = !(([sampleTodo].get ⟨0, Nat.one_pos⟩).completed) ∧
      ((toggleComplete [sampleTodo] "1-a" 1).get ⟨0, h1⟩).updatedAt
          = some 1) ∧
    (∀ h2 : 0 < (toggleComplete (toggleComplete [sampleTodo] "1-a" 1)
        "1-a" 2).length,
      ((toggleComplete (toggleComplete [sampleTodo] "1-a" 1) "1-a" 2).get
          ⟨0, h2⟩).completed = ([sampleTodo].get ⟨0, Nat.one_pos⟩).completed ∧
      ((toggleComplete (toggleComplete [sampleTodo] "1-a" 1) "1-a" 2).get
          ⟨0, h2⟩).updatedAt = some 2) ∧
    1 < 2 :=
  toggleComplete_twice [sampleTodo] "1-a" 1 2 0 Nat.one_pos (by decide)
    (by decide)

/-- C7: submitting an edit whose target id is present (in a collection with
duplicate-free ids) and whose draft trims non-empty replaces exactly that
todo's title with the trimmed draft and stamps its `updatedAt`; its id,
completion flag and creation time are untouched (only `title` and
`updatedAt` change), it stays at the same position, every other todo is
unchanged, and the collection length is preserved. -/
theorem saveTodo_edit_present (s : AppState) (now : Nat) (rand : String)
    (eid : String) (i : Nat) (hi : i < s.todos.length)
    (hid : s.editingId = some eid) (heid : eid ≠ "")
    (htarget : (s.todos.get ⟨i, hi⟩).id = eid)
    (hnodup : (s.todos.map (fun t => t.id)).Nodup)
    (hdraft : jsTrim s.currentTitle ≠ "") :
    (saveTodo s now rand).state.todos.length = s.todos.length ∧
    (∀ hj : i < (saveTodo s now rand).state.todos.length,
      (saveTodo s now rand).state.todos.get ⟨i, hj⟩
        = { s.todos.get ⟨i, hi⟩ with
            title := jsTrim s.currentTitle, updatedAt := some now }) ∧
    (∀ (j : Nat) (hj : j < s.todos.length)
        (hj2 : j < (saveTodo s now rand).state.todos.length), j ≠ i →
      (saveTodo s now rand).state.todos.get ⟨j, hj2⟩
        = s.todos.get ⟨j, hj⟩) := by
  have hsave : (saveTodo s now rand).state.todos
      = s.todos.map (fun t =>
          if t.id = eid then
            { t with title := jsTrim s.currentTitle, updatedAt := some now }
          else t) := by
    unfold saveTodo
    simp [hdraft, hid, heid]
  refine ⟨by rw [hsave]; simp, ?_, ?_⟩
  · intro hj
    have hjm : i < (s.todos.map (fun t =>
        if t.id = eid then
          { t with title := jsTrim s.currentTitle, updatedAt := some now }
        else t)).length := by
      simpa using hi
    have htarget2 : s.todos[i].id = eid := htarget
    rw [get_congr _ _ hsave i hj hjm, get_map_self _ s.todos i hi hjm]
    simp [htarget2]
  · intro j hj hj2 hji
    have hne : (s.todos.get ⟨j, hj⟩).id ≠ eid := by
      intro he
      apply hji
      have hj' : j < (s.todos.map (fun t => t.id)).length := by
        simpa using hj
      have hi' : i < (s.todos.map (fun t => t.id)).length := by
        simpa using hi
      have hgj : (s.todos.map (fun t => t.id)).get ⟨j, hj'⟩
          = (s.todos.get ⟨j, hj⟩).id :=
        get_map_self _ s.todos j hj hj'
      have hgi : (s.todos.map (fun t => t.id)).get ⟨i, hi'⟩
          = (s.todos.get ⟨i, hi⟩).id :=
        get_map_self _ s.todos i hi hi'
      have heq : (s.todos.map (fun t => t.id)).get ⟨j, hj'⟩
          = (s.todos.map (fun t => t.id)).get ⟨i, hi'⟩ := by
        rw [hgj, hgi, he, htarget]
      have := (List.Nodup.get_inj_iff hnodup).mp heq
      exact congrArg Fin.val this
    have hjm : j < (s.todos.map (fun t =>
        if t.id = eid then
          { t with title := jsTrim s.currentTitle, updatedAt := some now }
        else t)).length := by
      simpa using hj
    have hne2 : ¬ s.todos[j].id = eid := hne
    rw [get_congr _ _ hsave j hj2 hjm, get_map_self _ s.todos j hj hjm]
    simp [hne2]

/-- Witness for C7: editing the first of two concrete todos. -/
theorem saveTodo_edit_present_witness :
    editDemo.state.todos.length = [sampleTodo, doneTodo].length ∧
    (∀ hj : 0 < editDemo.state.todos.length,
      editDemo.state.todos.get ⟨0, hj⟩
        = { [sampleTodo, doneTodo].get ⟨0, Nat.two_pos⟩ with
            title := jsTrim " new ", updatedAt := some 9 }) ∧
    (∀ (j : Nat) (hj : j < [sampleTodo, doneTodo].length)
        (hj2 : j < editDemo.state.todos.length), j ≠ 0 →
      editDemo.state.todos.get ⟨j, hj2⟩ = [sampleTodo, doneTodo].get ⟨j, hj⟩) :=
  saveTodo_edit_present (editState [sampleTodo, doneTodo] " new " "1-a") 9
    "r" "1-a" 0 Nat.two_pos rfl (by decide) (by decide) (by decide)
    (by decide)

/-- Any single id-fresh event preserves the collection invariant. -/
theorem invariant_step (s : AppState) (e : Event)
    (h : Invariant s.todos) (hf : eventFresh s e = true) :
    Invariant (step s e).todos := by
  obtain ⟨htitles, hids⟩ := h
  cases e with
  | openAdd => exact ⟨htitles, hids⟩
  | openEdit id =>
      show Invariant (openEditModal s id).todos
      unfold openEditModal
      cases s.todos.find? (fun t => t.id = id) <;> exact ⟨htitles, hids⟩
  | typeText text => exact ⟨htitles, hids⟩
  | cancel => exact ⟨htitles, hids⟩
  | toggle id now =>
      show Invariant (toggleComplete s.todos id now)
      unfold toggleComplete
      constructor
      · intro t' ht'
        obtain ⟨t, ht, rfl⟩ := List.mem_map.mp ht'
        by_cases hc : t.id = id
        · simpa [hc] using htitles t ht
        · simpa [hc] using htitles t ht
      · rw [map_ids_of_preserving]
        · exact hids
        · intro t
          by_cases hc : t.id = id <;> simp [hc]
  | deleteConfirmed id =>
      show Invariant (deleteTodo s.todos id).1
      unfold deleteTodo
      exact invariant_filter s.todos _ ⟨htitles, hids⟩
  | clearConfirmed =>
      show Invariant (clearCompleted s.todos).1
      unfold clearCompleted
      by_cases hany : s.todos.any (fun t => t.completed)
      · simpa [hany] using invariant_filter s.todos _ ⟨htitles, hids⟩
      · simpa [hany] using And.intro htitles hids
  | submit now rand =>
      show Invariant (saveTodo s now rand).state.todos
      by_cases hd : jsTrim s.currentTitle = ""
      · unfold saveTodo
        simpa [hd] using And.intro htitles hids
      · have hcreate : ∀ rest : List Todo,
            (∀ t ∈ rest, t.title ≠ "" ∧ jsTrim t.title = t.title) →
            ∀ t ∈ ({ id := mkId now rand, title := jsTrim s.currentTitle,
                     completed := false, createdAt := now,
                     updatedAt := none } : Todo) :: rest,
              t.title ≠ "" ∧ jsTrim t.title = t.title := by
          intro rest hrest t ht
          rcases List.mem_cons.mp ht with rfl | htl
          · exact ⟨hd, jsTrim_idem s.currentTitle⟩
          · exact hrest t htl
        cases hsid : s.editingId with
        | none =>
            have hfresh : ¬ mkId now rand ∈ s.todos.map (fun t => t.id) := by
              unfold eventFresh at hf
              simp [hsid, isTruthy, hd] at hf
              simpa using hf
            have hsave : (saveTodo s now rand).state.todos
                = { id := mkId now rand, title := jsTrim s.currentTitle,
                    completed := false, createdAt := now,
                    updatedAt := none } :: s.todos := by
              unfold saveTodo
              simp [hd, hsid]
            rw [hsave]
            refine ⟨hcreate s.todos htitles, ?_⟩
            rw [List.map_cons]
            exact List.nodup_cons.mpr ⟨hfresh, hids⟩
        | some eid =>
            by_cases heid : eid = ""
            · subst heid
              have hfresh : ¬ mkId now rand ∈ s.todos.map (fun t => t.id) := by
                unfold eventFresh at hf
                simp [hsid, isTruthy, hd] at hf
                simpa using hf
              have hsave : (saveTodo s now rand).state.todos
                  = { id := mkId now rand, title := jsTrim s.currentTitle,
                      completed := false, createdAt := now,
                      updatedAt := none } :: s.todos := by
                unfold saveTodo
                simp [hd, hsid]
              rw [hsave]
              refine ⟨hcreate s.todos htitles, ?_⟩
              rw [List.map_cons]
              exact List.nodup_cons.mpr ⟨hfresh, hids⟩
            · have hsave : (saveTodo s now rand).state.todos
                  = s.todos.map (fun t =>
                      if t.id = eid then
                        { t with title := jsTrim s.currentTitle,
                                 updatedAt := some now }
                      else t) := by
                unfold saveTodo
                simp [hd, hsid, heid]
              rw [hsave]
              constructor
              · intro t' ht'
                obtain ⟨t, ht, rfl⟩ := List.mem_map.mp ht'
                by_cases hc : t.id = eid
                · simpa [hc] using And.intro hd (jsTrim_idem s.currentTitle)
                · simpa [hc] using htitles t ht
              · rw [map_ids_of_preserving]
                · exact hids
                · intro t
                  by_cases hc : t.id = eid <;> simp [hc]

/-- Any id-fresh event sequence preserves the collection invariant. -/
theorem invariant_run (s : AppState) (es : List Event)
    (h : Invariant s.todos) (hf : freshEvents s es = true) :
    Invariant (run s es).todos := by
  induction es generalizing s with
  | nil => exact h
  | cons e es ih =>
      have hf' := hf
      unfold freshEvents at hf'
      obtain ⟨hf1, hf2⟩ := Bool.and_eq_true_iff.mp hf'
      exact ih (step s e) (invariant_step s e h hf1) hf2

/-- C8: starting from the initial empty collection, every sequence of store
operations — creates, edits, toggles, deletes and bulk clears, interleaved
with any modal interaction — preserves the collection invariant: every
stored todo has a non-empty title equal to its own trimmed form, and no two
todos share an id.  Creations are assumed id-fresh: the environment-supplied
id (timestamp plus random suffix) does not already occur in the
collection. -/
theorem store_invariant (es : List Event)
    (hf : freshEvents initState es = true) :
    Invariant (run initState es).todos := by
  exact invariant_run initState es
    ⟨fun t ht => absurd ht (List.not_mem_nil t), List.nodup_nil⟩ hf

/-- Witness for C8: a concrete session that creates two todos, toggles one,
deletes one and clears the completed ones. -/
theorem store_invariant_witness :
    freshEvents initState [Event.openAdd, Event.typeText "  buy milk ",
      Event.submit 5 "abc", Event.openAdd, Event.typeText "walk dog",
      Event.submit 6 "def", Event.toggle "5-abc" 7,
      Event.deleteConfirmed "6-def", Event.clearConfirmed] = true ∧
    Invariant (run initState [Event.openAdd, Event.typeText "  buy milk ",
      Event.submit 5 "abc", Event.openAdd, Event.typeText "walk dog",
      Event.submit 6 "def", Event.toggle "5-abc" 7,
      Event.deleteConfirmed "6-def", Event.clearConfirmed]).todos :=
  ⟨by decide, store_invariant _ (by decide)⟩

end TodoApp
